import Mathlib

/-!
# evcc: bootstrap sequencing, SoC delegate and token refresh request

A shallow embedding of three source files of the repository:

* `core/wrapper/chargeprogress.go`  (`ChargeProgress.SoC`)
* `cmd/setup.go`                    (`configureEnvironment`, `configureSponsorship`,
                                     `configureLoadPoints`, `configureSiteAndLoadpoints`, ...)
* `internal/vehicle/vw/refresh.go`  (`tokenRefresher.RefreshToken`)

Go functions with several results are embedded as functions returning a record
of those results; an `error` result is an `Option GoError` (`none` is `nil`).
Calls that leave the embedded code (RPC, broker, constructors of other
packages) are fields of an environment record, and every such call is
appended to a log so that "is never queried" and "runs before" can be stated.
-/

namespace Evcc

/-! ## Go error values -/

/-- Go `error` values as far as the embedded code builds and inspects them:
`errorsNew msg` is a value made by `errors.New(msg)` (also used for any foreign
error without a cause), `wrapf pfx cause` is `fmt.Errorf(pfx + "%w", cause)`.
Values are compared by structure; the embedded code compares errors only
against the sentinel `api.ErrNotAvailable`, through `errors.Is`. -/
inductive GoError where
  | errorsNew (msg : String)
  | wrapf (pfx : String) (cause : GoError)
deriving DecidableEq, Repr

namespace GoError

/-- The `Error()` text of an error value. -/
def Error : GoError → String
  | errorsNew msg => msg
  | wrapf pfx cause => pfx ++ cause.Error

/-- The `Unwrap()` result: the wrapped cause, `none` when there is none. -/
def Unwrap : GoError → Option GoError
  | errorsNew _ => none
  | wrapf _ cause => some cause

end GoError

/-- The loop of `errors.Is(err, target)` for non-nil arguments: compare, then
follow `Unwrap` until the chain ends. -/
def errorsIsChain (target : GoError) : GoError → Bool
  | GoError.errorsNew msg => decide (GoError.errorsNew msg = target)
  | GoError.wrapf pfx cause =>
      decide (GoError.wrapf pfx cause = target) || errorsIsChain target cause

/-- Go `errors.Is(err, target)` for a non-nil `target`; a nil `err` is not the target. -/
def errorsIs (err : Option GoError) (target : GoError) : Bool :=
  match err with
  | none => false
  | some e => errorsIsChain target e

/-- Modelled from the spec: `api.ErrNotAvailable`, the package-level sentinel error
"capability not available" of package `api`, which is not part of this slice. -/
def ErrNotAvailable : GoError := GoError.errorsNew "capability not available"

/-! ## core/wrapper/chargeprogress.go -/

/-- The two objects a `ChargeProgress` delegates to. -/
inductive Source where
  | charger
  | vehicle
deriving DecidableEq, Repr

/-- Go `ChargeProgress` holds a charger and a vehicle. Of each, only the outcome of
the type assertion to `api.Battery` matters: `none` when the object does not
implement it, `some (v, e)` when it does and its `SoC()` reports `(v, e)`.
The `float64` payload is only passed through, so its type `V` is kept abstract;
`0` is the zero value of the named result `res`. -/
structure ChargeProgress (V : Type) where
  charger : Option (V × Option GoError)
  vehicle : Option (V × Option GoError)

/-- Results of `ChargeProgress.SoC` and the `SoC()` calls it made, in order. -/
structure SoCResult (V : Type) where
  res : V
  err : Option GoError
  queried : List Source

namespace ChargeProgress

variable {V : Type}

/-- Go `NewChargeProgress`. -/
def NewChargeProgress (charger vehicle : Option (V × Option GoError)) : ChargeProgress V :=
  { charger := charger, vehicle := vehicle }

/-- Go `(*ChargeProgress).Vehicle`: replace the vehicle. -/
def Vehicle (cp : ChargeProgress V) (vehicle : Option (V × Option GoError)) : ChargeProgress V :=
  { cp with vehicle := vehicle }

/-- Go `(*ChargeProgress).SoC`. -/
def SoC [Zero V] (cp : ChargeProgress V) : SoCResult V :=
  -- err = api.ErrNotAvailable
  let r0 : SoCResult V := { res := 0, err := some ErrNotAvailable, queried := [] }
  -- if charger, ok := cp.charger.(api.Battery); ok { res, err = charger.SoC() }
  let r1 : SoCResult V :=
    match cp.charger with
    | some soc => { res := soc.1, err := soc.2, queried := r0.queried ++ [Source.charger] }
    | none => r0
  -- if vehicle, ok := cp.vehicle.(api.Battery); errors.Is(err, api.ErrNotAvailable) && ok
  match cp.vehicle with
  | some soc =>
      if errorsIs r1.err ErrNotAvailable then
        { res := soc.1, err := soc.2, queried := r1.queried ++ [Source.vehicle] }
      else r1
  | none => r1

end ChargeProgress

/-! ## cmd/setup.go: environment -/

/-- Go `mqttConfig`. -/
structure mqttConfig where
  Broker : String
  User : String
  Password : String
deriving DecidableEq, Repr

/-- The fields of `config` read by the embedded functions. `Settings` stands
for `map[string]interface{}`. -/
structure config (Settings : Type) where
  SponsorToken : String
  Mqtt : mqttConfig
  Javascript : Settings
  Site : Settings

/-- Go `pb.AuthReply`: the answer of the authorization RPC. -/
structure AuthReply where
  Authorized : Bool
  Subject : String
deriving DecidableEq, Repr

/-- Calls leaving `configureEnvironment` and its helpers, with their arguments. -/
inductive EnvCall where
  | cloudConnection (host : String)
  | IsAuthorized (token : String)
  | RegisteredClient (broker user password clientID : String) (qos : Nat)
  | javascriptConfigure
deriving DecidableEq, Repr

/-- The two calls of sponsorship verification are the remote ones. -/
def EnvCall.isSponsorship : EnvCall → Bool
  | EnvCall.cloudConnection _ => true
  | EnvCall.IsAuthorized _ => true
  | _ => false

/-- The packages `configureEnvironment` calls into, as functions of their arguments. -/
structure EnvDeps (Conn Client Settings : Type) where
  /-- Go `util.Getenv(key, default)`. -/
  Getenv : String → String → String
  /-- Go `cloud.Host`. -/
  cloudHost : String
  /-- Go `cloud.Connection(host)`. -/
  cloudConnection : String → Except GoError Conn
  /-- Go `pb.NewAuthClient(conn).IsAuthorized(ctx, &pb.AuthRequest{Token: token})`. -/
  IsAuthorized : Conn → String → Except GoError AuthReply
  /-- Go `mqtt.ClientID()`. -/
  ClientID : String
  /-- Go `mqtt.RegisteredClient(log, broker, user, password, clientID, qos)`: both results. -/
  RegisteredClient : String → String → String → String → Nat → Option Client × Option GoError
  /-- Go `javascript.Configure(conf)`. -/
  javascriptConfigure : Settings → Option GoError

/-- Package-level variables written by the environment setup, and the call log. -/
structure BootState (Client : Type) where
  /-- Go `sponsor.Subject`; the empty string is "unset". -/
  sponsorSubject : String
  /-- Go `mqtt.Instance`. -/
  mqttInstance : Option Client
  calls : List EnvCall

section Environment

variable {Conn Client Settings : Type}

/-- Go `configureSponsorship`. The 10 second deadline of the context is part of
how `IsAuthorized` answers: running into it is one of its errors. -/
def configureSponsorship (env : EnvDeps Conn Client Settings) (token : String)
    (s : BootState Client) : Option GoError × BootState Client :=
  let host := env.Getenv "GRPC_URI" env.cloudHost
  let s1 := { s with calls := s.calls ++ [EnvCall.cloudConnection host] }
  match env.cloudConnection host with
  | Except.error err => (some err, s1)
  | Except.ok conn =>
    let s2 := { s1 with calls := s1.calls ++ [EnvCall.IsAuthorized token] }
    match env.IsAuthorized conn token with
    | Except.ok res =>
        if res.Authorized then (none, { s2 with sponsorSubject := res.Subject })
        else (none, s2)
    | Except.error err => (some (GoError.wrapf "sponsortoken: " err), s2)

/-- Go `configureMQTT`. -/
def configureMQTT (env : EnvDeps Conn Client Settings) (conf : mqttConfig)
    (s : BootState Client) : Option GoError × BootState Client :=
  let clientID := env.ClientID
  let r := env.RegisteredClient conf.Broker conf.User conf.Password clientID 1
  let s1 := { s with
    mqttInstance := r.1
    calls := s.calls ++
      [EnvCall.RegisteredClient conf.Broker conf.User conf.Password clientID 1] }
  match r.2 with
  | some err => (some (GoError.wrapf "failed configuring mqtt: " err), s1)
  | none => (none, s1)

/-- Go `configureJavascript`. -/
def configureJavascript (env : EnvDeps Conn Client Settings) (conf : Settings)
    (s : BootState Client) : Option GoError × BootState Client :=
  let s1 := { s with calls := s.calls ++ [EnvCall.javascriptConfigure] }
  match env.javascriptConfigure conf with
  | some err => (some (GoError.wrapf "failed configuring javascript: " err), s1)
  | none => (none, s1)

/-- Go `configureEnvironment`: the named result `err` starts as nil and is
threaded through the three guarded assignments. -/
def configureEnvironment (env : EnvDeps Conn Client Settings) (conf : config Settings)
    (s : BootState Client) : Option GoError × BootState Client :=
  let r0 : Option GoError × BootState Client := (none, s)
  -- if conf.SponsorToken != "" { err = configureSponsorship(conf.SponsorToken) }
  let r1 := if conf.SponsorToken ≠ "" then configureSponsorship env conf.SponsorToken r0.2 else r0
  -- if err == nil && conf.Mqtt.Broker != "" { err = configureMQTT(conf.Mqtt) }
  let r2 := if r1.1 = none ∧ conf.Mqtt.Broker ≠ "" then configureMQTT env conf.Mqtt r1.2 else r1
  -- if err == nil { err = configureJavascript(conf.Javascript) }
  if r2.1 = none then configureJavascript env conf.Javascript r2.2 else r2

/-- One step of a start-up sequence: it may fail and it may change the state. -/
abbrev Step (Client : Type) := BootState Client → Option GoError × BootState Client

/-- Specification of "run in order, stop at the first failure": the steps run
left to right; the first error ends the run and is the result, no later step
runs; with no error the result is nil. -/
def runUntilFailure : List (Step Client) → Step Client
  | [], s => (none, s)
  | step :: rest, s =>
      match step s with
      | (some err, s1) => (some err, s1)
      | (none, s1) => runUntilFailure rest s1

/-- Specification of the steps planned for a configuration, in order:
sponsorship only with a non-empty token, broker only with a broker address,
scripting always. -/
def plannedSteps (env : EnvDeps Conn Client Settings) (conf : config Settings) :
    List (Step Client) :=
  (if conf.SponsorToken ≠ "" then [configureSponsorship env conf.SponsorToken] else []) ++
  (if conf.Mqtt.Broker ≠ "" then [configureMQTT env conf.Mqtt] else []) ++
  [configureJavascript env conf.Javascript]

end Environment

/-! ## cmd/setup.go: load points and site -/

/-- Go `strconv.Itoa`: the decimal text of an integer. -/
def Itoa (i : Int) : String :=
  if i < 0 then "-" ++ Nat.repr i.natAbs else Nat.repr i.natAbs

/-- Calls leaving `configureSiteAndLoadpoints` and its helpers. `index` is the
position (from 0) of the block of the load-point list the call is made for. -/
inductive SiteCall (LP : Type) where
  | cpConfigure
  | DecodeOther (index : Nat)
  | NewLoadPointFromConfig (index : Nat) (logger : String)
  | NewSiteFromConfig (loadPoints : List LP)

/-- The block position a call works on, if it works on one block. -/
def SiteCall.block? {LP : Type} : SiteCall LP → Option Nat
  | SiteCall.DecodeOther i => some i
  | SiteCall.NewLoadPointFromConfig i _ => some i
  | _ => none

/-- The packages `configureSiteAndLoadpoints` calls into, as functions of their
arguments. `Dyn` stands for `interface{}`, `Settings` for
`map[string]interface{}`, `CP` for the state of the `ConfigProvider`. -/
structure SiteDeps (Dyn Settings CP LP Site : Type) where
  /-- Go `cp.configure(conf)`: the error and the provider afterwards. -/
  cpConfigure : config Settings → CP → Option GoError × CP
  /-- Go `viper.AllSettings()["loadpoints"].([]interface{})`: `none` when the key
  is missing or not a list (`ok` false). -/
  loadpoints : Option (List Dyn)
  /-- Go `util.DecodeOther(lpcI, &lpc)`. -/
  DecodeOther : Dyn → Except GoError Settings
  /-- Go `core.NewLoadPointFromConfig(log, cp, lpc)`, `log` given by the logger name. -/
  NewLoadPointFromConfig : String → CP → Settings → Except GoError LP
  /-- Go `core.NewSiteFromConfig(log, cp, conf, loadPoints)`. -/
  NewSiteFromConfig : CP → Settings → List LP → Except GoError Site

/-- Results of `configureLoadPoints`, and the calls it made. -/
structure LoadPointsResult (LP : Type) where
  loadPoints : List LP
  err : Option GoError
  calls : List (SiteCall LP)

/-- Results of `configureSite` and of `configureSiteAndLoadpoints`. -/
structure SiteResult (CP LP Site : Type) where
  site : Option Site
  err : Option GoError
  cp : CP
  calls : List (SiteCall LP)

section Site

variable {Dyn Settings CP LP Site : Type}

/-- The `for id, lpcI := range lpInterfaces` loop of `configureLoadPoints`:
`id` is the index of the head of the remaining blocks, `loadPoints` the slice
appended to so far. -/
def configureLoadPoints.loop (env : SiteDeps Dyn Settings CP LP Site) (cp : CP) :
    List Dyn → Nat → List LP → List (SiteCall LP) → LoadPointsResult LP
  | [], _, loadPoints, calls => { loadPoints := loadPoints, err := none, calls := calls }
  | lpcI :: rest, id, loadPoints, calls =>
      let calls1 := calls ++ [SiteCall.DecodeOther id]
      match env.DecodeOther lpcI with
      | Except.error err =>
          { loadPoints := []
            err := some (GoError.wrapf "failed decoding loadpoint configuration: " err)
            calls := calls1 }
      | Except.ok lpc =>
          let log := "lp-" ++ Itoa ((id : Int) + 1)
          let calls2 := calls1 ++ [SiteCall.NewLoadPointFromConfig id log]
          match env.NewLoadPointFromConfig log cp lpc with
          | Except.error err =>
              { loadPoints := []
                err := some (GoError.wrapf "failed configuring loadpoint: " err)
                calls := calls2 }
          | Except.ok lp => configureLoadPoints.loop env cp rest (id + 1) (loadPoints ++ [lp]) calls2

/-- Go `configureLoadPoints`. -/
def configureLoadPoints (env : SiteDeps Dyn Settings CP LP Site) (cp : CP) :
    LoadPointsResult LP :=
  match env.loadpoints with
  | none => { loadPoints := [], err := some (GoError.errorsNew "missing loadpoints"), calls := [] }
  | some [] => { loadPoints := [], err := some (GoError.errorsNew "missing loadpoints"), calls := [] }
  | some (lpcI :: rest) => configureLoadPoints.loop env cp (lpcI :: rest) 0 [] []

/-- Go `configureSite`. -/
def configureSite (env : SiteDeps Dyn Settings CP LP Site) (conf : Settings) (cp : CP)
    (loadPoints : List LP) : SiteResult CP LP Site :=
  match env.NewSiteFromConfig cp conf loadPoints with
  | Except.error err =>
      { site := none, err := some (GoError.wrapf "failed configuring site: " err), cp := cp
        calls := [SiteCall.NewSiteFromConfig loadPoints] }
  | Except.ok site =>
      { site := some site, err := none, cp := cp, calls := [SiteCall.NewSiteFromConfig loadPoints] }

/-- Go `configureSiteAndLoadpoints`; `cp0` is the package-level `cp` before the call. -/
def configureSiteAndLoadpoints (env : SiteDeps Dyn Settings CP LP Site)
    (conf : config Settings) (cp0 : CP) : SiteResult CP LP Site :=
  match env.cpConfigure conf cp0 with
  | (some err, cp) => { site := none, err := some err, cp := cp, calls := [SiteCall.cpConfigure] }
  | (none, cp) =>
      let lps := configureLoadPoints env cp
      match lps.err with
      | none =>
          let r := configureSite env conf.Site cp lps.loadPoints
          { r with calls := [SiteCall.cpConfigure] ++ lps.calls ++ r.calls }
      | some err =>
          { site := none, err := some err, cp := cp, calls := [SiteCall.cpConfigure] ++ lps.calls }

/-- Specification of one block taken alone: the error that decoding block `raw`
at position `index` (from 0) and constructing its load point under the label
"lp-" followed by the decimal of `index + 1` gives, `none` when both succeed. -/
def blockError (env : SiteDeps Dyn Settings CP LP Site) (cp : CP) (index : Nat) (raw : Dyn) :
    Option GoError :=
  match env.DecodeOther raw with
  | Except.error err => some (GoError.wrapf "failed decoding loadpoint configuration: " err)
  | Except.ok lpc =>
      match env.NewLoadPointFromConfig ("lp-" ++ Itoa ((index : Int) + 1)) cp lpc with
      | Except.error err => some (GoError.wrapf "failed configuring loadpoint: " err)
      | Except.ok _ => none

/-- Block `raw` at position `index` fails to decode or to construct. -/
def blockFails (env : SiteDeps Dyn Settings CP LP Site) (cp : CP) (index : Nat) (raw : Dyn) :
    Bool :=
  (blockError env cp index raw).isSome

end Site

/-! ## internal/vehicle/vw/refresh.go -/

/-- A Go `string` as the sequence of its bytes (each below 256). -/
abbrev GoString := List Nat

/-- The bytes of an ASCII string literal. -/
def lit (s : String) : GoString := s.toList.map Char.toNat

/-- Go's `<` on strings: bytewise lexicographic order. -/
def stringLess : GoString → GoString → Bool
  | [], [] => false
  | [], _ :: _ => true
  | _ :: _, [] => false
  | a :: as, b :: bs => if a < b then true else if b < a then false else stringLess as bs

/-- Insert a string into an ascending list. -/
def insertSorted (k : GoString) : List GoString → List GoString
  | [] => [k]
  | x :: xs => if stringLess k x then k :: x :: xs else x :: insertSorted k xs

/-- Go `sort.Strings`: the strings in ascending order. -/
def sortStrings (ks : List GoString) : List GoString := ks.foldr insertSorted []

/-- Go `shouldEscape(c, encodeQueryComponent)` of `net/url`: ASCII letters and
digits and `-`, `_`, `.`, `~` stay; the reserved characters and everything
else are escaped in a query component. -/
def shouldEscape (c : Nat) : Bool :=
  if ('a'.toNat ≤ c ∧ c ≤ 'z'.toNat) ∨ ('A'.toNat ≤ c ∧ c ≤ 'Z'.toNat) ∨
      ('0'.toNat ≤ c ∧ c ≤ '9'.toNat) then false
  else if c = '-'.toNat ∨ c = '_'.toNat ∨ c = '.'.toNat ∨ c = '~'.toNat then false
  else true

/-- Go `upperhex[i]`, the `i`-th byte of "0123456789ABCDEF". -/
def upperhex (i : Nat) : Nat := (lit "0123456789ABCDEF").getD i 0

/-- What the writing loop of `escape` emits for one byte: `+` for a space,
`%` and two upper-case hex digits (`c>>4`, `c&15`) for an escaped byte, the
byte itself otherwise. -/
def escapeByte (c : Nat) : GoString :=
  if c = ' '.toNat then ['+'.toNat]
  else if shouldEscape c then ['%'.toNat, upperhex (c / 16), upperhex (c % 16)]
  else [c]

/-- Go `url.QueryEscape(s)`, that is `escape(s, encodeQueryComponent)`: the string
itself when no byte needs escaping, else the output of the writing loop. -/
def QueryEscape (s : GoString) : GoString :=
  let spaceCount := (s.filter (fun c => shouldEscape c && c == ' '.toNat)).length
  let hexCount := (s.filter (fun c => shouldEscape c && !(c == ' '.toNat))).length
  if spaceCount = 0 ∧ hexCount = 0 then s else s.flatMap escapeByte

/-- Go `url.Values`, a `map[string][]string`, as the list of its entries (in no
particular order, keys distinct). -/
abbrev Values := List (GoString × List GoString)

/-- Go `v[k]` on a `url.Values`: the nil slice for an absent key. -/
def Values.get (v : Values) (k : GoString) : List GoString :=
  match v.find? (fun e => e.1 = k) with
  | some e => e.2
  | none => []

/-- Go `url.Values.Encode`: keys in ascending order; for every value of every key
`&` (unless the buffer is empty), the escaped key, `=`, the escaped value. -/
def Values.Encode (v : Values) : GoString :=
  let keys := sortStrings (v.map Prod.fst)
  keys.foldl (fun buf k =>
    let vs := v.get k
    let keyEscaped := QueryEscape k
    vs.foldl (fun buf val =>
      (if buf.length > 0 then buf ++ ['&'.toNat] else buf)
        ++ keyEscaped ++ ['='.toNat] ++ QueryEscape val) buf) []

/-- Go `tokenRefresher`: the client identifier; `OauthTokenURI` is the package
constant of the token endpoint, declared outside this slice. -/
structure tokenRefresher where
  clientID : GoString
  OauthTokenURI : GoString

/-- The arguments of the `request.New` call in `RefreshToken`. -/
structure RequestArgs where
  method : GoString
  uri : GoString
  body : GoString
  headers : List (GoString × GoString)

/-- Results of `RefreshToken`, with the `request.New` calls it made (their
arguments) and the requests it handed to `DoJSON`, in order. -/
structure RefreshResult (Req Token : Type) where
  token : Token
  err : Option GoError
  requests : List RequestArgs
  sent : List Req

/-- The `url.Values` literal of `RefreshToken`, entries in source order. -/
def tokenRefresher.data (refreshToken : GoString) : Values :=
  [ (lit "grant_type", [lit "refresh_token"]),
    (lit "refresh_token", [refreshToken]),
    (lit "scope", [lit "sc2:fal"]) ]

/-- Go `tokenRefresher.RefreshToken`, for an old token with the given
`RefreshToken` field: encode `data`, build the request with
`request.New(http.MethodPost, OauthTokenURI, strings.NewReader(data.Encode()), headers)`,
and when that gave no error decode the JSON answer with `DoJSON`; the token
read (the zero value `zero` when nothing was decoded) is returned with the
error. `requestNew` and `DoJSON` are the helpers of package `request`. -/
def tokenRefresher.RefreshToken {Req Token : Type} (tr : tokenRefresher)
    (requestNew : RequestArgs → Except GoError Req)
    (DoJSON : Req → Token × Option GoError) (zero : Token)
    (refreshToken : GoString) : RefreshResult Req Token :=
  let data : Values := tokenRefresher.data refreshToken
  let args : RequestArgs :=
    { method := lit "POST"
      uri := tr.OauthTokenURI
      body := Values.Encode data
      headers := [ (lit "Content-Type", lit "application/x-www-form-urlencoded"),
                   (lit "X-Client-Id", tr.clientID) ] }
  match requestNew args with
  | Except.error err => { token := zero, err := some err, requests := [args], sent := [] }
  | Except.ok req =>
      let res := DoJSON req
      { token := res.1, err := res.2, requests := [args], sent := [req] }

/-! ## Helpers of the statements and sample environments -/

/-- Go `strings.HasPrefix(s, pfx)`. -/
def HasPrefix (s pfx : String) : Bool := pfx.toList.isPrefixOf s.toList

/-- Position of a call in the fixed order of the environment setup. -/
def EnvCall.rank : EnvCall → Nat
  | EnvCall.cloudConnection _ => 0
  | EnvCall.IsAuthorized _ => 1
  | EnvCall.RegisteredClient _ _ _ _ _ => 2
  | EnvCall.javascriptConfigure => 3

/-- An environment in which the authorization host answers `res` to every token,
and broker and scripting set-up succeed. -/
def answeringEnv (res : AuthReply) : EnvDeps Unit Unit Unit :=
  { Getenv := fun _ dflt => dflt
    cloudHost := "cloud.example:8080"
    cloudConnection := fun _ => Except.ok ()
    IsAuthorized := fun _ _ => Except.ok res
    ClientID := "evcc-1"
    RegisteredClient := fun _ _ _ _ _ => (some (), none)
    javascriptConfigure := fun _ => none }

/-- An environment in which no connection to the authorization host can be opened. -/
def unreachableEnv : EnvDeps Unit Unit Unit :=
  { answeringEnv { Authorized := true, Subject := "alice" } with
    cloudConnection := fun _ => Except.error (GoError.errorsNew "connection refused") }

/-- An environment in which the connection opens and the authorization RPC fails. -/
def rpcFailingEnv : EnvDeps Unit Unit Unit :=
  { answeringEnv { Authorized := true, Subject := "alice" } with
    IsAuthorized := fun _ _ => Except.error (GoError.errorsNew "deadline exceeded") }

/-- The state before start-up: no subject, no broker client, nothing called. -/
def freshState : BootState Unit := { sponsorSubject := "", mqttInstance := none, calls := [] }

/-- A site with the given load-point list in which every block decodes to
itself, a load point is its label with its block, and the site is the list of
its load points. -/
def listedSite (loadpoints : Option (List Nat)) :
    SiteDeps Nat Nat Unit (String × Nat) (List (String × Nat)) :=
  { cpConfigure := fun _ cp => (none, cp)
    loadpoints := loadpoints
    DecodeOther := fun raw => Except.ok raw
    NewLoadPointFromConfig := fun log _ lpc => Except.ok (log, lpc)
    NewSiteFromConfig := fun _ _ lps => Except.ok lps }

/-- A configuration without sponsor token and broker. -/
def plainConfig : config Nat :=
  { SponsorToken := "", Mqtt := { Broker := "", User := "", Password := "" }
    Javascript := 0, Site := 0 }

/-! ## Theorems: ChargeProgress.SoC -/

/-- C7: when the charger implements the battery capability and its `SoC` reports
`(v, e)` with `e` not "capability not available" in the sense of `errors.Is`
(`e` nil or any other error), then for every vehicle `ChargeProgress.SoC`
returns exactly `(v, e)` and only the charger was queried, never the vehicle. -/
theorem soc_charger_result_final {V : Type} [Zero V] (v : V) (e : Option GoError)
    (vehicle : Option (V × Option GoError))
    (he : errorsIs e ErrNotAvailable = false) :
    let r := ChargeProgress.SoC { charger := some (v, e), vehicle := vehicle }
    r.res = v ∧ r.err = e ∧ r.queried = [Source.charger] ∧ Source.vehicle ∉ r.queried := by
  cases vehicle <;> simp [ChargeProgress.SoC, he]

/-- Witness for C7: charger reports `(55, nil)`, the vehicle would report `(42, nil)`. -/
theorem soc_charger_result_final_witness :
    errorsIs none ErrNotAvailable = false ∧
    (let r := ChargeProgress.SoC
        { charger := some ((55 : ℚ), none), vehicle := some ((42 : ℚ), none) }
     r.res = 55 ∧ r.err = none ∧ r.queried = [Source.charger] ∧ Source.vehicle ∉ r.queried) :=
  ⟨rfl, soc_charger_result_final (55 : ℚ) none (some ((42 : ℚ), none)) rfl⟩

/-- C8: when the charger lacks the battery capability, or has it and reports
"capability not available" (in the sense of `errors.Is`, with any value), and
the vehicle has the capability and reports `(v, nil)`, then
`ChargeProgress.SoC` returns `(v, nil)`. -/
theorem soc_falls_back_to_vehicle {V : Type} [Zero V]
    (charger : Option (V × Option GoError)) (v : V)
    (hc : charger = none ∨ ∃ c e, charger = some (c, e) ∧ errorsIs e ErrNotAvailable = true) :
    let r := ChargeProgress.SoC { charger := charger, vehicle := some (v, none) }
    r.res = v ∧ r.err = none := by
  rcases hc with rfl | ⟨c, e, rfl, he⟩
  · simp [ChargeProgress.SoC, errorsIs, errorsIsChain, ErrNotAvailable]
  · simp [ChargeProgress.SoC, he]

/-- Witness for C8: charger reports "capability not available", vehicle reports 42. -/
theorem soc_falls_back_to_vehicle_witness :
    (let r := ChargeProgress.SoC
        { charger := some ((0 : ℚ), some ErrNotAvailable), vehicle := some ((42 : ℚ), none) }
     r.res = 42 ∧ r.err = none) :=
  soc_falls_back_to_vehicle (some ((0 : ℚ), some ErrNotAvailable)) (42 : ℚ)
    (Or.inr ⟨0, some ErrNotAvailable, rfl, by decide⟩)

/-- C9 as stated fails: the charger reports "capability not available", the
vehicle's `SoC` reports the value 7 together with an error `E` that is not
"capability not available"; `ChargeProgress.SoC` returns `(7, E)`, not `(0, E)`. -/
theorem soc_vehicle_error_value_not_zeroed :
    errorsIs (some (GoError.errorsNew "timeout")) ErrNotAvailable = false ∧
    (ChargeProgress.SoC
        { charger := some ((0 : ℚ), some ErrNotAvailable),
          vehicle := some ((7 : ℚ), some (GoError.errorsNew "timeout")) }).err
      = some (GoError.errorsNew "timeout") ∧
    (ChargeProgress.SoC
        { charger := some ((0 : ℚ), some ErrNotAvailable),
          vehicle := some ((7 : ℚ), some (GoError.errorsNew "timeout")) }).res ≠ 0 := by
  refine ⟨by decide, by decide, ?_⟩
  simp [ChargeProgress.SoC, errorsIs, errorsIsChain, ErrNotAvailable]

/-- C9 (amended): when the charger reports "capability not available" (in the
sense of `errors.Is`) and the vehicle has the battery capability and its `SoC`
reports `(v, E)`, then `ChargeProgress.SoC` returns `(v, E)`: the error
unchanged, with the value the vehicle reported, which is `(0, E)` whenever the
vehicle reports the value 0 with its error. -/
theorem soc_vehicle_error_passed_through {V : Type} [Zero V]
    (c v : V) (ec : Option GoError) (E : GoError)
    (hc : errorsIs ec ErrNotAvailable = true)
    (_hE : errorsIs (some E) ErrNotAvailable = false) :
    let r := ChargeProgress.SoC { charger := some (c, ec), vehicle := some (v, some E) }
    (r.res = v ∧ r.err = some E) ∧ (v = 0 → r.res = 0 ∧ r.err = some E) := by
  simp [ChargeProgress.SoC, hc]

/-- Witness for C9 (amended): the vehicle reports `(0, "timeout")`. -/
theorem soc_vehicle_error_passed_through_witness :
    errorsIs (some ErrNotAvailable) ErrNotAvailable = true ∧
    errorsIs (some (GoError.errorsNew "timeout")) ErrNotAvailable = false ∧
    (let r := ChargeProgress.SoC
        { charger := some ((0 : ℚ), some ErrNotAvailable),
          vehicle := some ((0 : ℚ), some (GoError.errorsNew "timeout")) }
     (r.res = 0 ∧ r.err = some (GoError.errorsNew "timeout")) ∧
       ((0 : ℚ) = 0 → r.res = 0 ∧ r.err = some (GoError.errorsNew "timeout"))) :=
  ⟨by decide, by decide,
    soc_vehicle_error_passed_through (0 : ℚ) 0 (some ErrNotAvailable)
      (GoError.errorsNew "timeout") (by decide) (by decide)⟩

/-! ## Theorems: environment setup -/

section EnvironmentTheorems

variable {Conn Client Settings : Type}

theorem configureSponsorship_calls (env : EnvDeps Conn Client Settings) (token : String)
    (s : BootState Client) :
    ∃ added, (configureSponsorship env token s).2.calls = s.calls ++ added ∧
      List.Pairwise (fun a b => a.rank < b.rank) added ∧ ∀ c ∈ added, c.rank < 2 := by
  rcases hc : env.cloudConnection (env.Getenv "GRPC_URI" env.cloudHost) with ec | conn
  · exact ⟨[EnvCall.cloudConnection (env.Getenv "GRPC_URI" env.cloudHost)],
      by simp [configureSponsorship, hc], by simp, by simp [EnvCall.rank]⟩
  · refine ⟨[EnvCall.cloudConnection (env.Getenv "GRPC_URI" env.cloudHost),
        EnvCall.IsAuthorized token], ?_, by simp [EnvCall.rank], by simp [EnvCall.rank]⟩
    rcases ha : env.IsAuthorized conn token with ea | res
    · simp [configureSponsorship, hc, ha]
    · by_cases hz : res.Authorized = true <;> simp [configureSponsorship, hc, ha, hz]

theorem configureMQTT_frame (env : EnvDeps Conn Client Settings) (conf : mqttConfig)
    (s : BootState Client) :
    (configureMQTT env conf s).2.calls = s.calls ++
        [EnvCall.RegisteredClient conf.Broker conf.User conf.Password env.ClientID 1] ∧
    (configureMQTT env conf s).2.sponsorSubject = s.sponsorSubject ∧
    ((configureMQTT env conf s).1 = none ∨
      ∃ e, (configureMQTT env conf s).1 = some (GoError.wrapf "failed configuring mqtt: " e)) := by
  rcases hm : (env.RegisteredClient conf.Broker conf.User conf.Password env.ClientID 1).2
    with _ | e <;> simp [configureMQTT, hm]

theorem configureJavascript_frame (env : EnvDeps Conn Client Settings) (conf : Settings)
    (s : BootState Client) :
    (configureJavascript env conf s).2.calls = s.calls ++ [EnvCall.javascriptConfigure] ∧
    (configureJavascript env conf s).2.sponsorSubject = s.sponsorSubject ∧
    ((configureJavascript env conf s).1 = none ∨
      ∃ e, (configureJavascript env conf s).1
        = some (GoError.wrapf "failed configuring javascript: " e)) := by
  rcases hj : env.javascriptConfigure conf with _ | e <;> simp [configureJavascript, hj]

theorem configureEnvironment_eq_run (env : EnvDeps Conn Client Settings)
    (conf : config Settings) (s : BootState Client) :
    configureEnvironment env conf s = runUntilFailure (plannedSteps env conf) s := by
  unfold configureEnvironment plannedSteps
  by_cases ht : conf.SponsorToken = "" <;> by_cases hb : conf.Mqtt.Broker = ""
  · simp [ht, hb, runUntilFailure]
    rcases configureJavascript env conf.Javascript s with ⟨_ | e, s3⟩ <;> rfl
  · simp [ht, hb, runUntilFailure]
    rcases configureMQTT env conf.Mqtt s with ⟨_ | e, s2⟩
    · simp
      rcases configureJavascript env conf.Javascript s2 with ⟨_ | e, s3⟩ <;> rfl
    · simp
  · simp [ht, hb, runUntilFailure]
    rcases configureSponsorship env conf.SponsorToken s with ⟨_ | e, s1⟩
    · simp
      rcases configureJavascript env conf.Javascript s1 with ⟨_ | e, s3⟩ <;> rfl
    · simp
  · simp [ht, hb, runUntilFailure]
    rcases configureSponsorship env conf.SponsorToken s with ⟨_ | e, s1⟩
    · simp
      rcases configureMQTT env conf.Mqtt s1 with ⟨_ | e, s2⟩
      · simp
        rcases configureJavascript env conf.Javascript s2 with ⟨_ | e, s3⟩ <;> rfl
      · simp
    · simp


theorem configureEnvironment_calls (env : EnvDeps Conn Client Settings)
    (conf : config Settings) (s : BootState Client) :
    ∃ added, (configureEnvironment env conf s).2.calls = s.calls ++ added ∧
      List.Pairwise (fun a b => a.rank < b.rank) added ∧
      (conf.SponsorToken = "" → ∀ c ∈ added, c.isSponsorship = false) := by
  unfold configureEnvironment
  dsimp only
  generalize hr1 : (if conf.SponsorToken ≠ "" then
    configureSponsorship env conf.SponsorToken s else (none, s)) = r1
  generalize hr2 : (if r1.1 = none ∧ conf.Mqtt.Broker ≠ "" then
    configureMQTT env conf.Mqtt r1.2 else r1) = r2
  have h1 : ∃ a1, r1.2.calls = s.calls ++ a1 ∧
      List.Pairwise (fun a b => a.rank < b.rank) a1 ∧ (∀ c ∈ a1, c.rank < 2) ∧
      (conf.SponsorToken = "" → a1 = []) := by
    subst hr1
    by_cases ht : conf.SponsorToken = ""
    · exact ⟨[], by simp [ht], by simp, by simp, fun _ => rfl⟩
    · obtain ⟨a, ha, hp, hr⟩ := configureSponsorship_calls env conf.SponsorToken s
      exact ⟨a, by simp [ht, ha], hp, hr, fun h => absurd h ht⟩
  have h2 : ∃ a2, r2.2.calls = r1.2.calls ++ a2 ∧ (∀ c ∈ a2, c.rank = 2) ∧
      List.Pairwise (fun a b => a.rank < b.rank) a2 := by
    subst hr2
    by_cases hg : r1.1 = none ∧ conf.Mqtt.Broker ≠ ""
    · rw [if_pos hg]
      exact ⟨[_], (configureMQTT_frame env conf.Mqtt r1.2).1, by simp [EnvCall.rank], by simp⟩
    · rw [if_neg hg]
      exact ⟨[], by simp, by simp, by simp⟩
  have h3 : ∃ a3, (if r2.1 = none then configureJavascript env conf.Javascript r2.2
      else r2).2.calls = r2.2.calls ++ a3 ∧ (∀ c ∈ a3, c.rank = 3) ∧
      List.Pairwise (fun a b => a.rank < b.rank) a3 := by
    by_cases hg : r2.1 = none
    · rw [if_pos hg]
      exact ⟨[_], (configureJavascript_frame env conf.Javascript r2.2).1,
        by simp [EnvCall.rank], by simp⟩
    · rw [if_neg hg]
      exact ⟨[], by simp, by simp, by simp⟩
  obtain ⟨a1, h1c, h1p, h1r, h1t⟩ := h1
  obtain ⟨a2, h2c, h2r, h2p⟩ := h2
  obtain ⟨a3, h3c, h3r, h3p⟩ := h3
  refine ⟨a1 ++ (a2 ++ a3), ?_, ?_, ?_⟩
  · rw [h3c, h2c, h1c]
    simp [List.append_assoc]
  · rw [List.pairwise_append]
    refine ⟨h1p, ?_, ?_⟩
    · rw [List.pairwise_append]
      refine ⟨h2p, h3p, ?_⟩
      · intro a ha b hb
        rw [h2r a ha, h3r b hb]
        decide
    · intro a ha b hb
      rw [List.mem_append] at hb
      have := h1r a ha
      rcases hb with hb | hb
      · rw [h2r b hb]; exact this
      · rw [h3r b hb]; omega
  · intro ht c hc
    rw [h1t ht] at hc
    simp only [List.nil_append, List.mem_append] at hc
    rcases hc with hc | hc
    · have := h2r c hc
      cases c <;> simp_all [EnvCall.rank, EnvCall.isSponsorship]
    · have := h3r c hc
      cases c <;> simp_all [EnvCall.rank, EnvCall.isSponsorship]

theorem configureEnvironment_noToken_err (env : EnvDeps Conn Client Settings)
    (conf : config Settings) (s : BootState Client) (ht : conf.SponsorToken = "") :
    (configureEnvironment env conf s).2.sponsorSubject = s.sponsorSubject ∧
    ((configureEnvironment env conf s).1 = none ∨
      ∃ e, (configureEnvironment env conf s).1
              = some (GoError.wrapf "failed configuring mqtt: " e) ∨
           (configureEnvironment env conf s).1
              = some (GoError.wrapf "failed configuring javascript: " e)) := by
  obtain ⟨_, hms, hme⟩ := configureMQTT_frame env conf.Mqtt s
  by_cases hb : conf.Mqtt.Broker = ""
  · obtain ⟨_, hjs, hje⟩ := configureJavascript_frame env conf.Javascript s
    have hrun : configureEnvironment env conf s = configureJavascript env conf.Javascript s := by
      simp [configureEnvironment, ht, hb]
    rw [hrun]
    refine ⟨hjs, ?_⟩
    rcases hje with h | ⟨e, h⟩
    · exact Or.inl h
    · exact Or.inr ⟨e, Or.inr h⟩
  · rcases hme with h | ⟨e, h⟩
    · obtain ⟨_, hjs, hje⟩ :=
        configureJavascript_frame env conf.Javascript (configureMQTT env conf.Mqtt s).2
      have hrun : configureEnvironment env conf s
          = configureJavascript env conf.Javascript (configureMQTT env conf.Mqtt s).2 := by
        simp [configureEnvironment, ht, hb, h]
      rw [hrun]
      refine ⟨hjs.trans hms, ?_⟩
      rcases hje with h | ⟨e, h⟩
      · exact Or.inl h
      · exact Or.inr ⟨e, Or.inr h⟩
    · have hrun : configureEnvironment env conf s = configureMQTT env conf.Mqtt s := by
        simp [configureEnvironment, ht, hb, h]
      rw [hrun]
      exact ⟨hms, Or.inr ⟨e, Or.inl h⟩⟩

/-- C1: `configureEnvironment` is the run-until-first-failure of the planned
steps (sponsorship only with a non-empty token, then broker only with a broker
address, then scripting): it returns the error of the first failing step with
the state that step left, and nil when all succeed. The calls it adds to the
log are in the fixed order connection, authorization, broker, scripting. With
an empty token none of the added calls is a sponsorship call, the subject is
untouched and the returned error is nil or a broker or scripting error. -/
theorem configureEnvironment_runs_in_order (env : EnvDeps Conn Client Settings)
    (conf : config Settings) (s : BootState Client) :
    configureEnvironment env conf s = runUntilFailure (plannedSteps env conf) s ∧
    (∃ added, (configureEnvironment env conf s).2.calls = s.calls ++ added ∧
      List.Pairwise (fun a b => a.rank < b.rank) added ∧
      (conf.SponsorToken = "" → ∀ c ∈ added, c.isSponsorship = false)) ∧
    (conf.SponsorToken = "" →
      (configureEnvironment env conf s).2.sponsorSubject = s.sponsorSubject ∧
      ((configureEnvironment env conf s).1 = none ∨
        ∃ e, (configureEnvironment env conf s).1
                = some (GoError.wrapf "failed configuring mqtt: " e) ∨
             (configureEnvironment env conf s).1
                = some (GoError.wrapf "failed configuring javascript: " e))) := by
  exact ⟨configureEnvironment_eq_run env conf s, configureEnvironment_calls env conf s,
    configureEnvironment_noToken_err env conf s⟩

/-- C2: when the connection opens and the authorization call answers `res`
without error, `configureSponsorship` returns nil; if `res` is flagged
authorized the shared subject afterwards is `res.Subject`; if it is not, the
shared subject is what it was before (unset stays unset). The broker handle
is untouched either way. -/
theorem configureSponsorship_records_subject (env : EnvDeps Conn Client Settings)
    (token : String) (s : BootState Client) (conn : Conn) (res : AuthReply)
    (hconn : env.cloudConnection (env.Getenv "GRPC_URI" env.cloudHost) = Except.ok conn)
    (hres : env.IsAuthorized conn token = Except.ok res) :
    (configureSponsorship env token s).1 = none ∧
    (res.Authorized = true → (configureSponsorship env token s).2.sponsorSubject = res.Subject) ∧
    (res.Authorized = false →
      (configureSponsorship env token s).2.sponsorSubject = s.sponsorSubject ∧
      (s.sponsorSubject = "" → (configureSponsorship env token s).2.sponsorSubject = "")) ∧
    (configureSponsorship env token s).2.mqttInstance = s.mqttInstance := by
  by_cases hz : res.Authorized = true
  · simp [configureSponsorship, hconn, hres, hz]
  · simp [configureSponsorship, hconn, hres, hz]

/-- Witness for C2: the host answers "not authorized" for subject "alice" and
the subject starts unset. -/
theorem configureSponsorship_records_subject_witness :
    (configureSponsorship (answeringEnv { Authorized := false, Subject := "alice" })
        "token" freshState).1 = none ∧
    (configureSponsorship (answeringEnv { Authorized := false, Subject := "alice" })
        "token" freshState).2.sponsorSubject = "" :=
  have h := configureSponsorship_records_subject
    (answeringEnv { Authorized := false, Subject := "alice" }) "token" freshState ()
    { Authorized := false, Subject := "alice" } rfl rfl
  ⟨h.1, (h.2.2.1 rfl).2 rfl⟩

/-- C3 at a failing input: the connection to the authorization host cannot be
opened ("connection refused"). `configureSponsorship` returns that error as it
is: it wraps nothing and its text does not start with "sponsortoken: ", while
a failing authorization RPC in the same function is returned wrapped under
that prefix. -/
theorem configureSponsorship_connection_error_unwrapped :
    (configureSponsorship unreachableEnv "token" freshState).1
      = some (GoError.errorsNew "connection refused") ∧
    ((configureSponsorship unreachableEnv "token" freshState).1.bind GoError.Unwrap) = none ∧
    ((configureSponsorship unreachableEnv "token" freshState).1.map
      (fun e => HasPrefix e.Error "sponsortoken: ")) = some false ∧
    (configureSponsorship rpcFailingEnv "token" freshState).1
      = some (GoError.wrapf "sponsortoken: " (GoError.errorsNew "deadline exceeded")) := by
  refine ⟨rfl, rfl, ?_, rfl⟩
  decide

end EnvironmentTheorems

/-! ## Theorems: load points and site -/

section SiteTheorems

variable {Dyn Settings CP LP Site : Type}

theorem blockFails_false_iff (env : SiteDeps Dyn Settings CP LP Site) (cp : CP) (index : Nat)
    (raw : Dyn) :
    blockFails env cp index raw = false ↔
      ∃ lpc lp, env.DecodeOther raw = Except.ok lpc ∧
        env.NewLoadPointFromConfig ("lp-" ++ Itoa ((index : Int) + 1)) cp lpc = Except.ok lp := by
  unfold blockFails blockError
  rcases hd : env.DecodeOther raw with e | lpc
  · simp
  · rcases hn : env.NewLoadPointFromConfig ("lp-" ++ Itoa ((index : Int) + 1)) cp lpc with e | lp
    · simp [hn]
    · simp [hn]

theorem loop_ok (env : SiteDeps Dyn Settings CP LP Site) (cp : CP) :
    ∀ (blocks : List Dyn) (id : Nat) (acc : List LP) (calls : List (SiteCall LP)),
    (∀ k raw, blocks[k]? = some raw → blockFails env cp (id + k) raw = false) →
    (configureLoadPoints.loop env cp blocks id acc calls).err = none ∧
    ∃ built, (configureLoadPoints.loop env cp blocks id acc calls).loadPoints = acc ++ built ∧
      built.length = blocks.length ∧
      ∀ k raw, blocks[k]? = some raw → ∃ lpc lp, env.DecodeOther raw = Except.ok lpc ∧
        env.NewLoadPointFromConfig ("lp-" ++ Itoa (((id + k : Nat) : Int) + 1)) cp lpc
          = Except.ok lp ∧ built[k]? = some lp := by
  intro blocks
  induction blocks with
  | nil =>
    intro id acc calls _
    exact ⟨rfl, [], by simp [configureLoadPoints.loop], rfl, by simp⟩
  | cons raw rest ih =>
    intro id acc calls h
    obtain ⟨lpc, lp, hd, hn⟩ := (blockFails_false_iff env cp (id + 0) raw).1 (h 0 raw (by simp))
    rw [Nat.add_zero] at hn
    have hrest : ∀ k raw', rest[k]? = some raw' → blockFails env cp (id + 1 + k) raw' = false := by
      intro k raw' hk
      have := h (k + 1) raw' (by simpa using hk)
      rwa [show id + (k + 1) = id + 1 + k by omega] at this
    obtain ⟨herr, built, hb, hlen, hall⟩ := ih (id + 1) (acc ++ [lp])
      (calls ++ [SiteCall.DecodeOther id] ++
        [SiteCall.NewLoadPointFromConfig id ("lp-" ++ Itoa ((id : Int) + 1))]) hrest
    have hstep : configureLoadPoints.loop env cp (raw :: rest) id acc calls
        = configureLoadPoints.loop env cp rest (id + 1) (acc ++ [lp])
            (calls ++ [SiteCall.DecodeOther id] ++
              [SiteCall.NewLoadPointFromConfig id ("lp-" ++ Itoa ((id : Int) + 1))]) := by
      simp [configureLoadPoints.loop, hd, hn]
    rw [hstep]
    refine ⟨herr, lp :: built, by rw [hb]; simp, by simp [hlen], ?_⟩
    intro k raw' hk
    cases k with
    | zero =>
      simp only [List.getElem?_cons_zero, Option.some.injEq] at hk
      subst hk
      exact ⟨lpc, lp, hd, by simpa using hn, by simp⟩
    | succ k =>
      obtain ⟨lpc', lp', hd', hn', hb'⟩ := hall k raw' (by simpa using hk)
      refine ⟨lpc', lp', hd', ?_, by simpa using hb'⟩
      rwa [show id + (k + 1) = id + 1 + k by omega]

theorem loop_fail (env : SiteDeps Dyn Settings CP LP Site) (cp : CP) :
    ∀ (blocks : List Dyn) (id : Nat) (acc : List LP) (calls : List (SiteCall LP))
      (k : Nat) (raw : Dyn),
    blocks[k]? = some raw → blockFails env cp (id + k) raw = true →
    (configureLoadPoints.loop env cp blocks id acc calls).err ≠ none ∧
    (configureLoadPoints.loop env cp blocks id acc calls).loadPoints = [] ∧
    ∃ added, (configureLoadPoints.loop env cp blocks id acc calls).calls = calls ++ added ∧
      ∀ c ∈ added, ∃ i, c.block? = some i ∧ i ≤ id + k := by
  intro blocks
  induction blocks with
  | nil => intro id acc calls k raw hk; simp at hk
  | cons b rest ih =>
    intro id acc calls k raw hk hf
    rcases hd : env.DecodeOther b with e | lpc
    · refine ⟨by simp [configureLoadPoints.loop, hd], by simp [configureLoadPoints.loop, hd],
        [SiteCall.DecodeOther id], by simp [configureLoadPoints.loop, hd], ?_⟩
      intro c hc
      simp only [List.mem_singleton] at hc
      subst hc
      exact ⟨id, rfl, by omega⟩
    · rcases hn : env.NewLoadPointFromConfig ("lp-" ++ Itoa ((id : Int) + 1)) cp lpc with e | lp
      · refine ⟨by simp [configureLoadPoints.loop, hd, hn],
          by simp [configureLoadPoints.loop, hd, hn],
          [SiteCall.DecodeOther id,
            SiteCall.NewLoadPointFromConfig id ("lp-" ++ Itoa ((id : Int) + 1))],
          by simp [configureLoadPoints.loop, hd, hn], ?_⟩
        intro c hc
        simp only [List.mem_cons, List.mem_singleton, List.not_mem_nil, or_false] at hc
        rcases hc with hc | hc <;> subst hc <;> exact ⟨id, rfl, by omega⟩
      · have hstep : configureLoadPoints.loop env cp (b :: rest) id acc calls
            = configureLoadPoints.loop env cp rest (id + 1) (acc ++ [lp])
                (calls ++ [SiteCall.DecodeOther id] ++
                  [SiteCall.NewLoadPointFromConfig id ("lp-" ++ Itoa ((id : Int) + 1))]) := by
          simp [configureLoadPoints.loop, hd, hn]
        cases k with
        | zero =>
          simp only [List.getElem?_cons_zero, Option.some.injEq] at hk
          subst hk
          simp [blockFails, blockError, hd, hn] at hf
        | succ k =>
          have hk' : rest[k]? = some raw := by simpa using hk
          have hf' : blockFails env cp (id + 1 + k) raw = true := by
            rwa [show id + (k + 1) = id + 1 + k by omega] at hf
          obtain ⟨h1, h2, added, h3, h4⟩ := ih (id + 1) (acc ++ [lp])
            (calls ++ [SiteCall.DecodeOther id] ++
              [SiteCall.NewLoadPointFromConfig id ("lp-" ++ Itoa ((id : Int) + 1))]) k raw hk' hf'
          rw [hstep]
          refine ⟨h1, h2, [SiteCall.DecodeOther id,
            SiteCall.NewLoadPointFromConfig id ("lp-" ++ Itoa ((id : Int) + 1))] ++ added,
            by rw [h3]; simp, ?_⟩
          intro c hc
          simp only [List.cons_append, List.nil_append, List.mem_cons] at hc
          rcases hc with hc | hc | hc
          · subst hc; exact ⟨id, rfl, by omega⟩
          · subst hc; exact ⟨id, rfl, by omega⟩
          · obtain ⟨i, hi, hle⟩ := h4 c hc
            exact ⟨i, hi, by omega⟩

theorem loop_err_shape (env : SiteDeps Dyn Settings CP LP Site) (cp : CP) :
    ∀ (blocks : List Dyn) (id : Nat) (acc : List LP) (calls : List (SiteCall LP)) (e : GoError),
    (configureLoadPoints.loop env cp blocks id acc calls).err = some e →
    ∃ cause, e = GoError.wrapf "failed decoding loadpoint configuration: " cause ∨
      e = GoError.wrapf "failed configuring loadpoint: " cause := by
  intro blocks
  induction blocks with
  | nil => intro id acc calls e h; simp [configureLoadPoints.loop] at h
  | cons b rest ih =>
    intro id acc calls e h
    rcases hd : env.DecodeOther b with c | lpc
    · simp [configureLoadPoints.loop, hd] at h
      exact ⟨c, Or.inl h.symm⟩
    · rcases hn : env.NewLoadPointFromConfig ("lp-" ++ Itoa ((id : Int) + 1)) cp lpc with c | lp
      · simp [configureLoadPoints.loop, hd, hn] at h
        exact ⟨c, Or.inr h.symm⟩
      · simp only [configureLoadPoints.loop, hd, hn] at h
        exact ih _ _ _ e h

theorem loop_err_exists (env : SiteDeps Dyn Settings CP LP Site) (cp : CP)
    (blocks : List Dyn) (id : Nat) (acc : List LP) (calls : List (SiteCall LP))
    (h : (configureLoadPoints.loop env cp blocks id acc calls).err ≠ none) :
    ∃ k raw, blocks[k]? = some raw ∧ blockFails env cp (id + k) raw = true := by
  by_contra hno
  apply h
  refine (loop_ok env cp blocks id acc calls ?_).1
  intro k raw hk
  by_contra hf
  exact hno ⟨k, raw, hk, by simpa using hf⟩

theorem loop_calls_blocks (env : SiteDeps Dyn Settings CP LP Site) (cp : CP) :
    ∀ (blocks : List Dyn) (id : Nat) (acc : List LP) (calls : List (SiteCall LP)),
    (∀ c ∈ calls, ∃ i, c.block? = some i) →
    ∀ c ∈ (configureLoadPoints.loop env cp blocks id acc calls).calls, ∃ i, c.block? = some i := by
  intro blocks
  induction blocks with
  | nil => intro id acc calls h; simpa [configureLoadPoints.loop] using h
  | cons b rest ih =>
    intro id acc calls h
    have h1 : ∀ c ∈ calls ++ [SiteCall.DecodeOther id], ∃ i, c.block? = some i := by
      intro c hc
      rcases List.mem_append.1 hc with hc | hc
      · exact h c hc
      · simp only [List.mem_singleton] at hc
        subst hc
        exact ⟨id, rfl⟩
    have h2 : ∀ c ∈ calls ++ [SiteCall.DecodeOther id] ++
        [SiteCall.NewLoadPointFromConfig id ("lp-" ++ Itoa ((id : Int) + 1))],
        ∃ i, c.block? = some i := by
      intro c hc
      rcases List.mem_append.1 hc with hc | hc
      · exact h1 c hc
      · simp only [List.mem_singleton] at hc
        subst hc
        exact ⟨id, rfl⟩
    rcases hd : env.DecodeOther b with e | lpc
    · simpa [configureLoadPoints.loop, hd] using h1
    · rcases hn : env.NewLoadPointFromConfig ("lp-" ++ Itoa ((id : Int) + 1)) cp lpc with e | lp
      · simpa [configureLoadPoints.loop, hd, hn] using h2
      · simp only [configureLoadPoints.loop, hd, hn]
        exact ih _ _ _ h2

theorem configureLoadPoints_calls_blocks (env : SiteDeps Dyn Settings CP LP Site) (cp : CP) :
    ∀ c ∈ (configureLoadPoints env cp).calls, ∃ i, c.block? = some i := by
  unfold configureLoadPoints
  rcases env.loadpoints with _ | blocks
  · simp
  · cases blocks with
    | nil => simp
    | cons b rest => exact loop_calls_blocks env cp (b :: rest) 0 [] [] (by simp)

theorem configureLoadPoints_err_shape (env : SiteDeps Dyn Settings CP LP Site) (cp : CP)
    (e : GoError) (h : (configureLoadPoints env cp).err = some e) :
    e = GoError.errorsNew "missing loadpoints" ∨
      ∃ cause, e = GoError.wrapf "failed decoding loadpoint configuration: " cause ∨
        e = GoError.wrapf "failed configuring loadpoint: " cause := by
  unfold configureLoadPoints at h
  rcases hset : env.loadpoints with _ | blocks
  · rw [hset] at h
    simp only [Option.some.injEq] at h
    exact Or.inl h.symm
  · rw [hset] at h
    cases blocks with
    | nil =>
      simp only [Option.some.injEq] at h
      exact Or.inl h.symm
    | cons b rest => exact Or.inr (loop_err_shape env cp (b :: rest) 0 [] [] e h)

theorem loop_first_error (env : SiteDeps Dyn Settings CP LP Site) (cp : CP) :
    ∀ (blocks : List Dyn) (id : Nat) (acc : List LP) (calls : List (SiteCall LP))
      (k : Nat) (raw : Dyn) (e : GoError),
    blocks[k]? = some raw →
    (∀ j raw', j < k → blocks[j]? = some raw' → blockFails env cp (id + j) raw' = false) →
    blockError env cp (id + k) raw = some e →
    (configureLoadPoints.loop env cp blocks id acc calls).err = some e := by
  intro blocks
  induction blocks with
  | nil => intro id acc calls k raw e hk; simp at hk
  | cons b rest ih =>
    intro id acc calls k raw e hk hprev he
    cases k with
    | zero =>
      simp only [List.getElem?_cons_zero, Option.some.injEq] at hk
      subst hk
      rw [Nat.add_zero] at he
      rcases hd : env.DecodeOther b with c | lpc
      · simp only [blockError, hd, Option.some.injEq] at he
        simp [configureLoadPoints.loop, hd, he]
      · rcases hn : env.NewLoadPointFromConfig ("lp-" ++ Itoa ((id : Int) + 1)) cp lpc
          with c | lp
        · simp only [blockError, hd, hn, Option.some.injEq] at he
          simp [configureLoadPoints.loop, hd, hn, he]
        · simp [blockError, hd, hn] at he
    | succ k =>
      obtain ⟨lpc, lp, hd, hn⟩ :=
        (blockFails_false_iff env cp (id + 0) b).1 (hprev 0 b (by omega) (by simp))
      rw [Nat.add_zero] at hn
      have hstep : configureLoadPoints.loop env cp (b :: rest) id acc calls
          = configureLoadPoints.loop env cp rest (id + 1) (acc ++ [lp])
              (calls ++ [SiteCall.DecodeOther id] ++
                [SiteCall.NewLoadPointFromConfig id ("lp-" ++ Itoa ((id : Int) + 1))]) := by
        simp [configureLoadPoints.loop, hd, hn]
      rw [hstep]
      refine ih (id + 1) _ _ k raw e (by simpa using hk) ?_ ?_
      · intro j raw' hj hjr
        have := hprev (j + 1) raw' (by omega) (by simpa using hjr)
        rwa [show id + (j + 1) = id + 1 + j by omega] at this
      · rwa [show id + (k + 1) = id + 1 + k by omega] at he

theorem configureLoadPoints_first_error (env : SiteDeps Dyn Settings CP LP Site) (cp : CP)
    (blocks : List Dyn) (k : Nat) (raw : Dyn) (e : GoError)
    (hset : env.loadpoints = some blocks) (hk : blocks[k]? = some raw)
    (hprev : ∀ (j : Nat) (raw' : Dyn), j < k → blocks[j]? = some raw' → ∃ lpc lp,
      env.DecodeOther raw' = Except.ok lpc ∧
      env.NewLoadPointFromConfig ("lp-" ++ Itoa ((j : Int) + 1)) cp lpc = Except.ok lp)
    (he : blockError env cp k raw = some e) :
    (configureLoadPoints env cp).err = some e := by
  have hrun : configureLoadPoints env cp = configureLoadPoints.loop env cp blocks 0 [] [] := by
    cases blocks with
    | nil => simp at hk
    | cons b rest => simp [configureLoadPoints, hset]
  rw [hrun]
  refine loop_first_error env cp blocks 0 [] [] k raw e hk ?_ (by rwa [Nat.zero_add])
  intro j raw' hj hjr
  rw [Nat.zero_add]
  exact (blockFails_false_iff env cp j raw').2 (hprev j raw' hj hjr)

/-- C4: when the load-point list holds N ≥ 1 blocks and every block decodes and
its load point constructs under the label "lp-" followed by the decimal of its
1-based position, `configureLoadPoints` returns no error and exactly N load
points, the one at (0-based) position `k` being the one constructed from block
`k` under the label "lp-" ++ decimal of `k + 1`; the labels of the first and
the twelfth block are "lp-1" and "lp-12". -/
theorem configureLoadPoints_builds_all (env : SiteDeps Dyn Settings CP LP Site) (cp : CP)
    (blocks : List Dyn) (hset : env.loadpoints = some blocks) (hN : 1 ≤ blocks.length)
    (hall : ∀ (k : Nat) (raw : Dyn), blocks[k]? = some raw → ∃ lpc lp,
      env.DecodeOther raw = Except.ok lpc ∧
      env.NewLoadPointFromConfig ("lp-" ++ Itoa ((k : Int) + 1)) cp lpc = Except.ok lp) :
    (configureLoadPoints env cp).err = none ∧
    (configureLoadPoints env cp).loadPoints.length = blocks.length ∧
    (∀ (k : Nat) (raw : Dyn), blocks[k]? = some raw → ∃ lpc lp,
      env.DecodeOther raw = Except.ok lpc ∧
      env.NewLoadPointFromConfig ("lp-" ++ Itoa ((k : Int) + 1)) cp lpc = Except.ok lp ∧
      (configureLoadPoints env cp).loadPoints[k]? = some lp) ∧
    "lp-" ++ Itoa (((0 : Nat) : Int) + 1) = "lp-1" ∧
    "lp-" ++ Itoa (((11 : Nat) : Int) + 1) = "lp-12" := by
  have hrun : configureLoadPoints env cp = configureLoadPoints.loop env cp blocks 0 [] [] := by
    cases blocks with
    | nil => simp at hN
    | cons b rest => simp [configureLoadPoints, hset]
  have hok : ∀ k raw, blocks[k]? = some raw → blockFails env cp (0 + k) raw = false := by
    intro k raw hk
    rw [Nat.zero_add]
    exact (blockFails_false_iff env cp k raw).2 (hall k raw hk)
  obtain ⟨herr, built, hb, hlen, hbuilt⟩ := loop_ok env cp blocks 0 [] [] hok
  rw [hrun]
  refine ⟨herr, by rw [hb]; simpa using hlen, ?_, by decide, by decide⟩
  intro k raw hk
  obtain ⟨lpc, lp, hd, hn, hk'⟩ := hbuilt k raw hk
  rw [Nat.zero_add] at hn
  exact ⟨lpc, lp, hd, hn, by rw [hb]; simpa using hk'⟩

/-- Witness for C4: two blocks, 10 and 20. -/
theorem configureLoadPoints_builds_all_witness :
    (configureLoadPoints (listedSite (some [10, 20])) ()).err = none ∧
    (configureLoadPoints (listedSite (some [10, 20])) ()).loadPoints.length = 2 :=
  have h := configureLoadPoints_builds_all (listedSite (some [10, 20])) () [10, 20] rfl
    (by decide) (fun k raw _ => ⟨raw, (_, raw), rfl, rfl⟩)
  ⟨h.1, h.2.1⟩

/-- C5: `configureLoadPoints` returns an error exactly when the load-point list
is missing, or empty, or holds a block that fails to decode or to construct;
for a missing or empty list the error is "missing loadpoints"; whenever it
returns an error the returned list is empty; and when the block at position
`k` fails, every call made is a decode or construct call for a block at a
position up to `k`, so no block after the first failing one is touched. -/
theorem configureLoadPoints_error_iff (env : SiteDeps Dyn Settings CP LP Site) (cp : CP) :
    ((configureLoadPoints env cp).err ≠ none ↔
      (env.loadpoints = none ∨ env.loadpoints = some [] ∨
        ∃ blocks k raw, env.loadpoints = some blocks ∧ blocks[k]? = some raw ∧
          blockFails env cp k raw = true)) ∧
    ((env.loadpoints = none ∨ env.loadpoints = some []) →
      (configureLoadPoints env cp).err = some (GoError.errorsNew "missing loadpoints")) ∧
    ((configureLoadPoints env cp).err ≠ none → (configureLoadPoints env cp).loadPoints = []) ∧
    (∀ blocks k raw, env.loadpoints = some blocks → blocks[k]? = some raw →
      blockFails env cp k raw = true →
      ∀ c ∈ (configureLoadPoints env cp).calls, ∃ i, c.block? = some i ∧ i ≤ k) := by
  rcases hset : env.loadpoints with _ | blocks
  · simp [configureLoadPoints, hset]
  · cases blocks with
    | nil => simp [configureLoadPoints, hset]
    | cons b rest =>
      have hrun : configureLoadPoints env cp
          = configureLoadPoints.loop env cp (b :: rest) 0 [] [] := by
        simp [configureLoadPoints, hset]
      rw [hrun]
      have hfail : ∀ k raw, (b :: rest)[k]? = some raw → blockFails env cp k raw = true →
          (configureLoadPoints.loop env cp (b :: rest) 0 [] []).err ≠ none ∧
          (configureLoadPoints.loop env cp (b :: rest) 0 [] []).loadPoints = [] ∧
          ∀ c ∈ (configureLoadPoints.loop env cp (b :: rest) 0 [] []).calls,
            ∃ i, c.block? = some i ∧ i ≤ k := by
        intro k raw hk hf
        obtain ⟨h1, h2, added, h3, h4⟩ :=
          loop_fail env cp (b :: rest) 0 [] [] k raw hk (by rwa [Nat.zero_add])
        refine ⟨h1, h2, ?_⟩
        intro c hc
        rw [h3, List.nil_append] at hc
        obtain ⟨i, hi, hle⟩ := h4 c hc
        exact ⟨i, hi, by omega⟩
      have hex : (configureLoadPoints.loop env cp (b :: rest) 0 [] []).err ≠ none →
          ∃ k raw, (b :: rest)[k]? = some raw ∧ blockFails env cp k raw = true := by
        intro h
        obtain ⟨k, raw, hk, hf⟩ := loop_err_exists env cp (b :: rest) 0 [] [] h
        exact ⟨k, raw, hk, by rwa [Nat.zero_add] at hf⟩
      refine ⟨⟨?_, ?_⟩, ?_, ?_, ?_⟩
      · intro h
        obtain ⟨k, raw, hk, hf⟩ := hex h
        exact Or.inr (Or.inr ⟨b :: rest, k, raw, rfl, hk, hf⟩)
      · rintro (h | h | ⟨blocks, k, raw, hb, hk, hf⟩)
        · simp at h
        · simp at h
        · simp only [Option.some.injEq] at hb
          subst hb
          exact (hfail k raw hk hf).1
      · rintro (h | h) <;> simp at h
      · intro h
        obtain ⟨k, raw, hk, hf⟩ := hex h
        exact (hfail k raw hk hf).2.1
      · intro blocks k raw hb hk hf
        simp only [Option.some.injEq] at hb
        subst hb
        exact (hfail k raw hk hf).2.2

/-- C6 as stated fails: with an empty load-point list the load-point stage fails
and `configureSiteAndLoadpoints` returns no site, but the error is the plain
"missing loadpoints" value, which wraps nothing. -/
theorem configureSiteAndLoadpoints_missing_not_wrapped :
    (configureSiteAndLoadpoints (listedSite (some [])) plainConfig ()).site = none ∧
    (configureSiteAndLoadpoints (listedSite (some [])) plainConfig ()).err
      = some (GoError.errorsNew "missing loadpoints") ∧
    ((configureSiteAndLoadpoints (listedSite (some [])) plainConfig ()).err.bind
      GoError.Unwrap) = none := by
  decide

/-- C6 (amended): `configureSiteAndLoadpoints` configures the load points
before the site and calls the site constructor only when load-point
configuration succeeded, with exactly the load points produced: its calls are
the provider configuration alone, or that followed by the load-point calls
with a load-point error and no site call, or that followed by the load-point
calls and then the one site call on the produced load points, where every
load-point call is a decode or construct call of a block. A failing
load-point stage gives no site and the load-point error: for a missing or
empty list the plain "missing loadpoints"; when the first failing block fails
to decode, the decode error wrapped under "failed decoding loadpoint
configuration: "; when it decodes and its load point fails to construct, the
construction error wrapped under "failed configuring loadpoint: ". A failing
site stage gives no site and the site error wrapped under "failed configuring
site: "; when both succeed the site is returned with a nil error. A failing
provider configuration, before either stage, gives no site and its error. -/
theorem configureSiteAndLoadpoints_stages (env : SiteDeps Dyn Settings CP LP Site)
    (conf : config Settings) (cp0 : CP) :
    ((configureSiteAndLoadpoints env conf cp0).calls = [SiteCall.cpConfigure] ∨
      ((configureLoadPoints env (env.cpConfigure conf cp0).2).err ≠ none ∧
        (configureSiteAndLoadpoints env conf cp0).calls
          = [SiteCall.cpConfigure] ++ (configureLoadPoints env (env.cpConfigure conf cp0).2).calls) ∨
      ((configureLoadPoints env (env.cpConfigure conf cp0).2).err = none ∧
        (configureSiteAndLoadpoints env conf cp0).calls
          = [SiteCall.cpConfigure] ++ (configureLoadPoints env (env.cpConfigure conf cp0).2).calls
            ++ [SiteCall.NewSiteFromConfig
                (configureLoadPoints env (env.cpConfigure conf cp0).2).loadPoints])) ∧
    (∀ c ∈ (configureLoadPoints env (env.cpConfigure conf cp0).2).calls,
      ∃ i, c.block? = some i) ∧
    ((env.cpConfigure conf cp0).1 = none →
      (∀ e, (configureLoadPoints env (env.cpConfigure conf cp0).2).err = some e →
        (configureSiteAndLoadpoints env conf cp0).site = none ∧
        (configureSiteAndLoadpoints env conf cp0).err = some e ∧
        (e = GoError.errorsNew "missing loadpoints" ∨
          ∃ cause, e = GoError.wrapf "failed decoding loadpoint configuration: " cause ∨
            e = GoError.wrapf "failed configuring loadpoint: " cause)) ∧
      ((configureLoadPoints env (env.cpConfigure conf cp0).2).err = none →
        (∀ cause, env.NewSiteFromConfig (env.cpConfigure conf cp0).2 conf.Site
            (configureLoadPoints env (env.cpConfigure conf cp0).2).loadPoints
              = Except.error cause →
          (configureSiteAndLoadpoints env conf cp0).site = none ∧
          (configureSiteAndLoadpoints env conf cp0).err
            = some (GoError.wrapf "failed configuring site: " cause)) ∧
        (∀ site, env.NewSiteFromConfig (env.cpConfigure conf cp0).2 conf.Site
            (configureLoadPoints env (env.cpConfigure conf cp0).2).loadPoints
              = Except.ok site →
          (configureSiteAndLoadpoints env conf cp0).site = some site ∧
          (configureSiteAndLoadpoints env conf cp0).err = none))) ∧
    ((env.cpConfigure conf cp0).1 = none →
      ((env.loadpoints = none ∨ env.loadpoints = some []) →
        (configureSiteAndLoadpoints env conf cp0).site = none ∧
        (configureSiteAndLoadpoints env conf cp0).err
          = some (GoError.errorsNew "missing loadpoints")) ∧
      (∀ (blocks : List Dyn) (k : Nat) (raw : Dyn), env.loadpoints = some blocks →
        blocks[k]? = some raw →
        (∀ (j : Nat) (raw' : Dyn), j < k → blocks[j]? = some raw' → ∃ lpc lp,
          env.DecodeOther raw' = Except.ok lpc ∧
          env.NewLoadPointFromConfig ("lp-" ++ Itoa ((j : Int) + 1))
            (env.cpConfigure conf cp0).2 lpc = Except.ok lp) →
        (∀ cause, env.DecodeOther raw = Except.error cause →
          (configureSiteAndLoadpoints env conf cp0).site = none ∧
          (configureSiteAndLoadpoints env conf cp0).err
            = some (GoError.wrapf "failed decoding loadpoint configuration: " cause)) ∧
        (∀ lpc cause, env.DecodeOther raw = Except.ok lpc →
          env.NewLoadPointFromConfig ("lp-" ++ Itoa ((k : Int) + 1))
            (env.cpConfigure conf cp0).2 lpc = Except.error cause →
          (configureSiteAndLoadpoints env conf cp0).site = none ∧
          (configureSiteAndLoadpoints env conf cp0).err
            = some (GoError.wrapf "failed configuring loadpoint: " cause)))) ∧
    (∀ e, (env.cpConfigure conf cp0).1 = some e →
      (configureSiteAndLoadpoints env conf cp0).site = none ∧
      (configureSiteAndLoadpoints env conf cp0).err = some e ∧
      (configureSiteAndLoadpoints env conf cp0).calls = [SiteCall.cpConfigure]) := by
  refine ⟨?_, configureLoadPoints_calls_blocks env _, ?_, ?_, ?_⟩
  · rcases hcp : env.cpConfigure conf cp0 with ⟨_ | e, cp⟩
    · rcases hl : (configureLoadPoints env cp).err with _ | e
      · right; right
        refine ⟨by simp [hl], ?_⟩
        rcases hs : env.NewSiteFromConfig cp conf.Site (configureLoadPoints env cp).loadPoints
          with c | site <;> simp [configureSiteAndLoadpoints, hcp, hl, configureSite, hs]
      · right; left
        exact ⟨by simp [hl], by simp [configureSiteAndLoadpoints, hcp, hl]⟩
    · left
      simp [configureSiteAndLoadpoints, hcp]
  · intro hnone
    rcases hcp : env.cpConfigure conf cp0 with ⟨e0, cp⟩
    rw [hcp] at hnone
    simp only at hnone
    subst hnone
    refine ⟨?_, ?_⟩
    · intro e he
      refine ⟨by simp [configureSiteAndLoadpoints, hcp, he],
        by simp [configureSiteAndLoadpoints, hcp, he], ?_⟩
      exact configureLoadPoints_err_shape env cp e he
    · intro hl
      refine ⟨?_, ?_⟩
      · intro cause hs
        simp [configureSiteAndLoadpoints, hcp, hl, configureSite, hs]
      · intro site hs
        simp [configureSiteAndLoadpoints, hcp, hl, configureSite, hs]
  · intro hnone
    rcases hcp : env.cpConfigure conf cp0 with ⟨e0, cp⟩
    rw [hcp] at hnone
    simp only at hnone
    subst hnone
    have hfail : ∀ e, (configureLoadPoints env cp).err = some e →
        (configureSiteAndLoadpoints env conf cp0).site = none ∧
        (configureSiteAndLoadpoints env conf cp0).err = some e := by
      intro e he
      exact ⟨by simp [configureSiteAndLoadpoints, hcp, he],
        by simp [configureSiteAndLoadpoints, hcp, he]⟩
    refine ⟨?_, ?_⟩
    · intro hmiss
      apply hfail
      rcases hmiss with h | h <;> simp [configureLoadPoints, h]
    · intro blocks k raw hset hk hprev
      refine ⟨?_, ?_⟩
      · intro cause hd
        apply hfail
        exact configureLoadPoints_first_error env cp blocks k raw _ hset hk hprev
          (by simp [blockError, hd])
      · intro lpc cause hd hn
        apply hfail
        exact configureLoadPoints_first_error env cp blocks k raw _ hset hk hprev
          (by simp [blockError, hd, hn])
  · intro e he
    rcases hcp : env.cpConfigure conf cp0 with ⟨e0, cp⟩
    rw [hcp] at he
    simp only at he
    subst he
    simp [configureSiteAndLoadpoints, hcp]

end SiteTheorems

/-! ## Theorems: token refresh request -/

theorem queryEscape_unreserved (tok : GoString) (h : ∀ c ∈ tok, shouldEscape c = false) :
    QueryEscape tok = tok := by
  have h1 : tok.filter (fun c => shouldEscape c && c == ' '.toNat) = [] := by
    rw [List.filter_eq_nil_iff]
    intro c hc
    simp [h c hc]
  have h2 : tok.filter (fun c => shouldEscape c && !(c == ' '.toNat)) = [] := by
    rw [List.filter_eq_nil_iff]
    intro c hc
    simp [h c hc]
  unfold QueryEscape
  dsimp only
  rw [h1, h2]
  simp

theorem encode_refresh_data (tok : GoString) :
    Values.Encode (tokenRefresher.data tok)
      = lit "grant_type=refresh_token&refresh_token=" ++ QueryEscape tok
          ++ lit "&scope=sc2%3Afal" := by
  have h : Values.Encode (tokenRefresher.data tok)
      = lit "grant_type=refresh_token&refresh_token=" ++ QueryEscape tok ++ ['&'.toNat]
          ++ lit "scope" ++ ['='.toNat] ++ lit "sc2%3Afal" := rfl
  rw [h]
  simp only [List.append_assoc]
  rfl

theorem encode_refresh_data_perm (tok : GoString) (m : Values)
    (h : List.Perm m (tokenRefresher.data tok)) :
    Values.Encode m = Values.Encode (tokenRefresher.data tok) := by
  rw [← List.mem_permutations'] at h
  simp only [tokenRefresher.data, List.permutations', List.permutations'Aux, List.map,
    List.flatMap, List.flatten, List.append, List.mem_cons, List.mem_singleton,
    List.not_mem_nil, or_false, List.cons_append, List.nil_append] at h
  rcases h with rfl | rfl | rfl | rfl | rfl | rfl <;> rfl

theorem refreshToken_requests {Req Token : Type} (tr : tokenRefresher)
    (requestNew : RequestArgs → Except GoError Req)
    (DoJSON : Req → Token × Option GoError) (zero : Token) (tok : GoString) :
    (tr.RefreshToken requestNew DoJSON zero tok).requests
      = [ { method := lit "POST"
            uri := tr.OauthTokenURI
            body := Values.Encode (tokenRefresher.data tok)
            headers := [ (lit "Content-Type", lit "application/x-www-form-urlencoded"),
                         (lit "X-Client-Id", tr.clientID) ] } ] := by
  unfold tokenRefresher.RefreshToken
  dsimp only
  split <;> rfl

/-- C10: for every old token, whatever `request.New` and `DoJSON` answer,
`RefreshToken` builds exactly one request: a POST to the token endpoint with
the form content type and the client identifier header, whose body is
`grant_type=refresh_token&refresh_token=` followed by the query-escaped
refresh token and `&scope=sc2%3Afal`, the three fields in ascending key order
joined by `&`, whatever the order in which the map holds its entries; a
refresh token of unreserved characters only appears unchanged, and for the
refresh token "abc" the body is exactly
`grant_type=refresh_token&refresh_token=abc&scope=sc2%3Afal`. -/
theorem refreshToken_body_form_encoded {Req Token : Type} (tr : tokenRefresher)
    (requestNew : RequestArgs → Except GoError Req)
    (DoJSON : Req → Token × Option GoError) (zero : Token) :
    (∀ tok : GoString, (tr.RefreshToken requestNew DoJSON zero tok).requests
      = [ { method := lit "POST"
            uri := tr.OauthTokenURI
            body := lit "grant_type=refresh_token&refresh_token=" ++ QueryEscape tok
              ++ lit "&scope=sc2%3Afal"
            headers := [ (lit "Content-Type", lit "application/x-www-form-urlencoded"),
                         (lit "X-Client-Id", tr.clientID) ] } ]) ∧
    (∀ tok : GoString, sortStrings ((tokenRefresher.data tok).map Prod.fst)
      = [lit "grant_type", lit "refresh_token", lit "scope"]) ∧
    (∀ (tok : GoString) (m : Values), List.Perm m (tokenRefresher.data tok) →
      [Values.Encode m]
        = (tr.RefreshToken requestNew DoJSON zero tok).requests.map RequestArgs.body) ∧
    (∀ tok : GoString, (∀ c ∈ tok, shouldEscape c = false) →
      (tr.RefreshToken requestNew DoJSON zero tok).requests.map RequestArgs.body
        = [lit "grant_type=refresh_token&refresh_token=" ++ tok ++ lit "&scope=sc2%3Afal"]) ∧
    QueryEscape (lit "sc2:fal") = lit "sc2%3Afal" ∧
    (tr.RefreshToken requestNew DoJSON zero (lit "abc")).requests.map RequestArgs.body
      = [lit "grant_type=refresh_token&refresh_token=abc&scope=sc2%3Afal"] := by
  refine ⟨?_, fun _ => rfl, ?_, ?_, by decide, ?_⟩
  · intro tok
    rw [refreshToken_requests, encode_refresh_data]
  · intro tok m h
    rw [refreshToken_requests, encode_refresh_data_perm tok m h]
    rfl
  · intro tok h
    rw [refreshToken_requests, encode_refresh_data, queryEscape_unreserved tok h]
    rfl
  · rw [refreshToken_requests, encode_refresh_data]
    have h : lit "grant_type=refresh_token&refresh_token=" ++ QueryEscape (lit "abc")
        ++ lit "&scope=sc2%3Afal"
          = lit "grant_type=refresh_token&refresh_token=abc&scope=sc2%3Afal" := by decide
    rw [h]
    rfl

end Evcc
